import Mathlib

/-!
# Verification of the starthack negotiation backend

A shallow embedding, over `List Char`, of the string processing, routing and
orchestration logic of the repository (src/agents.py, src/router.py,
src/main.py, src/email_client.py), together with theorems settling the frozen
claims about it.

Conventions:
* Python strings are modelled as `List Char`; `chars s` converts a Lean string
  literal.
* Python `None`-able values are `Option`; Python truthiness of a string
  (`if s:`) is "present and non-empty".
* Fallible Python code returns `Except (List Char) _` carrying the exception
  message.
* External calls (database, Bedrock completion, SMTP) are modelled by explicit
  state / outcome parameters; a function's observable side effects are returned
  as data (lists of performed actions).
-/

/-- Convert a string literal to the `List Char` representation used throughout. -/
def chars (s : String) : List Char := s.toList

/-- Python whitespace characters as used by `str.strip()` / `str.split()`
(ASCII: space, tab, newline, carriage return, vertical tab, form feed). -/
def wsChar (c : Char) : Bool :=
  c = ' ' ∨ c = '\t' ∨ c = '\n' ∨ c = '\r' ∨ c = '\x0b' ∨ c = '\x0c'

/-- Python `str.strip()`: drop leading and trailing whitespace. -/
def pyStrip (l : List Char) : List Char :=
  ((l.dropWhile wsChar).reverse.dropWhile wsChar).reverse

/-- Auxiliary for `pySplitWs`: accumulate the current word (reversed) while
scanning. Mirrors the maximal-run semantics of Python `str.split()`. -/
def splitWsAux : List Char → List Char → List (List Char)
  | acc, [] => if acc.isEmpty then [] else [acc.reverse]
  | acc, c :: rest =>
    if wsChar c then
      if acc.isEmpty then splitWsAux [] rest else acc.reverse :: splitWsAux [] rest
    else splitWsAux (c :: acc) rest

/-- Python `str.split()` with no separator: the maximal whitespace-free runs. -/
def pySplitWs (l : List Char) : List (List Char) := splitWsAux [] l

/-- `" ".join(words)`. -/
def joinSpace : List (List Char) → List Char
  | [] => []
  | [w] => w
  | w :: ws => w ++ ' ' :: joinSpace ws

/-- Case-insensitive character equality (`re.IGNORECASE`). -/
def ciEq (a b : Char) : Bool := a.toLower = b.toLower

/-- Case-insensitive "is `pat` a prefix of `l`". -/
def ciPrefixOf : List Char → List Char → Bool
  | [], _ => true
  | _ :: _, [] => false
  | p :: ps, c :: cs => ciEq p c && ciPrefixOf ps cs

/-- Scan `l` for the first (leftmost) case-insensitive occurrence of `pat` and
return the suffix that follows that occurrence, or `none` if `pat` never
occurs. This is how a regex engine consumes a literal alternative up to and
including its first match. -/
def dropThroughFirst (pat : List Char) : List Char → Option (List Char)
  | [] => none
  | c :: rest =>
    if ciPrefixOf pat (c :: rest) then some ((c :: rest).drop pat.length)
    else dropThroughFirst pat rest

/-- One `re.sub(r"<tag>.*?</tag>", "", text, flags=re.DOTALL | re.IGNORECASE)`
pass from `strip_reasoning_tokens` (src/agents.py lines 16-28): scanning left
to right, whenever `<tag>` matches (case-insensitively) and a matching
`</tag>` occurs later, everything from the opening tag through the first
subsequent closing tag is removed and scanning resumes after it. -/
def removeTag (tag : List Char) (l : List Char) : List Char :=
  match l with
  | [] => []
  | c :: rest =>
    if ciPrefixOf ('<' :: (tag ++ ['>'])) (c :: rest) then
      match h : dropThroughFirst ('<' :: '/' :: (tag ++ ['>']))
          ((c :: rest).drop ('<' :: (tag ++ ['>'])).length) with
      | some rem => removeTag tag rem
      | none => c :: removeTag tag rest
    else c :: removeTag tag rest
termination_by l.length
decreasing_by
  · have key : ∀ (pat x : List Char) r, dropThroughFirst pat x = some r →
        r.length ≤ x.length := by
      intro pat x
      induction x with
      | nil => intro r hr; simp [dropThroughFirst] at hr
      | cons a as ih =>
        intro r hr
        by_cases hp : ciPrefixOf pat (a :: as)
        · simp [dropThroughFirst, hp] at hr
          subst hr
          simp [List.length_drop]
        · simp [dropThroughFirst, hp] at hr
          have := ih r hr
          simp
          omega
    have hk := key _ _ _ h
    simp [List.length_drop] at hk ⊢
    omega
  all_goals simp

/-- `re.sub(r"\n{3,}", "\n\n", result)` (src/agents.py line 31): each maximal
run of three or more newlines collapses to exactly two. -/
def collapseNewlines : List Char → List Char
  | '\n' :: '\n' :: '\n' :: rest =>
    '\n' :: '\n' :: collapseNewlines (rest.dropWhile (· = '\n'))
  | c :: rest => c :: collapseNewlines rest
  | [] => []
termination_by l => l.length
decreasing_by
  · have := (List.dropWhile_suffix (l := rest) (fun c => decide (c = '\n'))).length_le
    simp at this ⊢
    omega
  · simp

/-- The seven reasoning tags of `strip_reasoning_tokens`, in source order
(src/agents.py lines 16-24). -/
def reasoningTags : List (List Char) :=
  [chars "thinking", chars "reasoning", chars "scratchpad", chars "think",
   chars "reflection", chars "internal", chars "analysis"]

/-- `strip_reasoning_tokens` (src/agents.py lines 10-34): remove the seven
reasoning-tag blocks in order, collapse long newline runs, then strip. -/
def strip_reasoning_tokens (text : List Char) : List Char :=
  pyStrip (collapseNewlines (reasoningTags.foldl (fun acc tag => removeTag tag acc) text))

/-- `NegotiationAgent._map_role` (src/agents.py lines 68-77):
`role_mapping.get(db_role, "user")` over the five-entry dictionary. -/
def map_role (db_role : List Char) : List Char :=
  if db_role = chars "negotiator" then chars "assistant"
  else if db_role = chars "supplier" then chars "user"
  else if db_role = chars "system" then chars "system"
  else if db_role = chars "user" then chars "user"
  else if db_role = chars "assistant" then chars "assistant"
  else chars "user"

/-- Python truthiness of an optional string (`if s:` on a `str | None`). -/
def optTruthy : Option (List Char) → Bool
  | none => false
  | some s => !s.isEmpty

/-- `EmailEvent` (src/router.py lines 11-20); the provider-specific `raw`
payload is irrelevant to routing and omitted. -/
structure EmailEvent where
  sender : List Char
  subject : List Char
  body : List Char
  supplier_id : Option (List Char) := none
  ng_id : Option (List Char) := none

/-- `_make_key` (src/router.py lines 23-25): `f"{ng_id}:{supplier_id}"`. -/
def make_key (ng_id supplier_id : List Char) : List Char :=
  ng_id ++ ':' :: supplier_id

/-- The mutable state of `EmailEventRouter` (src/router.py lines 38-44).
Handlers are identified abstractly by `Nat`; `handlers` is the key-to-handler
dictionary (an association list looked up by first match). -/
structure RouterState where
  handlers : List (List Char × Nat)
  default_handler : Option Nat

/-- The exact-composite-key lookup part of `EmailEventRouter.push`
(src/router.py lines 78-87): only consulted when the event carries both a
(truthy) negotiation id and supplier id. -/
def push_exact_handler (st : RouterState) (event : EmailEvent) : Option Nat :=
  if optTruthy event.ng_id && optTruthy event.supplier_id then
    (st.handlers.find? fun kv =>
        kv.1 = make_key (event.ng_id.getD []) (event.supplier_id.getD [])).map (·.2)
  else none

/-- `EmailEventRouter.push` (src/router.py lines 68-100), modelled by the
handler it dispatches: the exact-key handler if found, else the default
handler if set, else `none` (event dropped, no error). -/
def push (st : RouterState) (event : EmailEvent) : Option Nat :=
  match push_exact_handler st event with
  | some h => some h
  | none => st.default_handler

/-- One observable side effect of a session handler run
(src/router.py lines 136-181). -/
inductive Effect where
  | persistTurn (ng_id supplier_id role body : List Char)
  | refreshInstructions (ng_id : List Char)
  | sendMessage (ng_id supplier_id : List Char)
deriving DecidableEq, Repr

/-- The handler closure produced by `NegotiationSession._make_handler`
(src/router.py lines 131-181), for the session's `ng_id` and the captured
`supplier_id`. `agents` is the session's `_agents` key set *at event time*
(the closure reads `self._agents` when the event fires, src/router.py line
169). `orchOk` is the outcome of `orchestrator.generate_new_instructions()`.
Returns the ordered list of performed actions and whether the handler
returned normally (`false` = the orchestrator's exception propagated). -/
def session_handler (agents : List (List Char)) (ng_id supplier_id : List Char)
    (orchOk : Bool) (event : EmailEvent) : List Effect × Bool :=
  let afterPersist : List Effect :=
    [Effect.persistTurn ng_id supplier_id (chars "supplier") event.body]
  let afterRefresh : List Effect := afterPersist ++ [Effect.refreshInstructions ng_id]
  if orchOk then
    if agents.contains supplier_id then
      (afterRefresh ++ [Effect.sendMessage ng_id supplier_id], true)
    else (afterRefresh, true)
  else (afterRefresh, false)

/-- `NegotiationSession.add_agent` (src/router.py lines 126-129): record the
agent under its supplier id and register the handler key in the router. The
handler registered is `session_handler` reading the agent map at event time. -/
def add_agent (agents : List (List Char)) (st : RouterState) (ng_id supplier_id : List Char)
    (h : Nat) : List (List Char) × RouterState :=
  (supplier_id :: agents, { st with handlers := (make_key ng_id supplier_id, h) :: st.handlers })

/-- Construction-time configuration of a `NegotiationAgent`
(src/agents.py lines 44-66) as far as `send_initial_message` / `send_message`
observe it. `has_email_client` mirrors `self.email_client` being non-`None`. -/
structure AgentConfig where
  ng_id : List Char
  sup_id : List Char
  supplier_name : List Char
  product : List Char
  has_email_client : Bool
  supplier_email : Option (List Char)

/-- The observable outcome of one `send_initial_message` / `send_message`
call: the returned string, the `INSERT INTO message` rows executed
(ng_id, supplier_id, role, message_text), and the `email_send` calls made
(to, subject, body). -/
structure SendResult where
  returned : List Char
  persisted : List (List Char × List Char × List Char × List Char)
  emailed : List (List Char × List Char × List Char)
deriving DecidableEq, Repr

/-- The Bedrock failure return value (src/agents.py lines 160 and 224):
`f"Bedrock service is currently unavailable. {e}"`. -/
def bedrockUnavailable (e : List Char) : List Char :=
  chars "Bedrock service is currently unavailable. " ++ e

/-- Email subject of `send_initial_message` (src/agents.py line 187). -/
def initialSubject (cfg : AgentConfig) : List Char :=
  '[' :: cfg.supplier_name ++ chars "] [REF-" ++ cfg.ng_id.take 8 ++ '-' :: cfg.sup_id.take 8
    ++ chars "] Inquiry about " ++ cfg.product

/-- Email subject of `send_message` (src/agents.py line 252). -/
def replySubject (cfg : AgentConfig) : List Char :=
  chars "Re: [" ++ cfg.supplier_name ++ chars "] [REF-" ++ cfg.ng_id.take 8
    ++ '-' :: cfg.sup_id.take 8 ++ chars "] " ++ cfg.product ++ chars " negotiation"

/-- Common success/failure tail of `send_initial_message` (src/agents.py
lines 150-195) and `send_message` (lines 214-260): on Bedrock failure return
the placeholder without persisting or emailing; on success persist the raw
reply as a `negotiator` turn, then, if an email client and a (truthy)
supplier email are configured, email the reasoning-stripped reply under
`subject`. -/
def agent_send (cfg : AgentConfig) (subject : List Char)
    (completion : Except (List Char) (List Char)) : SendResult :=
  match completion with
  | .error e => { returned := bedrockUnavailable e, persisted := [], emailed := [] }
  | .ok reply =>
    { returned := reply
      persisted := [(cfg.ng_id, cfg.sup_id, chars "negotiator", reply)]
      emailed :=
        if cfg.has_email_client && optTruthy cfg.supplier_email then
          [(cfg.supplier_email.getD [], subject, strip_reasoning_tokens reply)]
        else [] }

/-- `NegotiationAgent.send_initial_message` (src/agents.py lines 105-195),
with the Bedrock invocation outcome abstracted as `completion`. -/
def send_initial_message (cfg : AgentConfig)
    (completion : Except (List Char) (List Char)) : SendResult :=
  agent_send cfg (initialSubject cfg) completion

/-- `NegotiationAgent.send_message` (src/agents.py lines 197-260), with the
Bedrock invocation outcome abstracted as `completion`. -/
def send_message (cfg : AgentConfig)
    (completion : Except (List Char) (List Char)) : SendResult :=
  agent_send cfg (replySubject cfg) completion

/-- `EmailClient` session credentials (src/email_client.py lines 20-27);
server/port settings do not affect the modelled behavior. -/
structure EmailClientState where
  email_address : Option (List Char)
  password : Option (List Char)

/-- One message handed to `aiosmtplib.send` (src/email_client.py lines 76-93). -/
structure SentEmail where
  fromAddr : List Char
  toAddr : List Char
  subject : List Char
  body : List Char
deriving DecidableEq, Repr

/-- The subject sanitation in `EmailClient.email_send` (src/email_client.py
lines 72-74): `subject.replace("\n", " ").replace("\r", " ").strip()` followed
by `" ".join(clean_subject.split())`. -/
def clean_subject (subject : List Char) : List Char :=
  joinSpace (pySplitWs (pyStrip
    ((subject.map fun c => if c = '\n' then ' ' else c).map fun c => if c = '\r' then ' ' else c)))

/-- `EmailClient.email_send` (src/email_client.py lines 65-93): raises unless
logged in, else sends exactly one message with the sanitized subject and the
recipient and body passed through. -/
def email_send (st : EmailClientState) (to_email subject body : List Char) :
    Except (List Char) SentEmail :=
  match st.email_address, st.password with
  | some addr, some _ =>
    .ok { fromAddr := addr, toAddr := to_email, subject := clean_subject subject, body := body }
  | _, _ => .error (chars "User not logged in. Call email_login first.")

/-- Spec-side sanitizer, written from the spec's words alone (§6 "subject text
must be sanitized of embedded line breaks and collapsed whitespace"; claim
C10: "all embedded line breaks removed and runs of whitespace collapsed to
single spaces, with leading and trailing whitespace stripped"): the
whitespace-separated words of the subject joined by single spaces. -/
def specSanitizeSubject (subject : List Char) : List Char :=
  joinSpace (pySplitWs subject)

/-- Hex digit as accepted by Python `int(_, 16)` (case-insensitive). -/
def hexDigit (c : Char) : Bool :=
  ('0' ≤ c ∧ c ≤ '9') ∨ ('a' ≤ c ∧ c ≤ 'f') ∨ ('A' ≤ c ∧ c ≤ 'F')

/-- Tail of Python's base-16 integer-literal grammar: hex digits with single
underscores allowed only between digits. -/
def hexTail : List Char → Bool
  | [] => true
  | '_' :: c :: r => hexDigit c && hexTail r
  | '_' :: [] => false
  | c :: r => hexDigit c && hexTail r

/-- Nonempty run of hex digits with single interior underscores. -/
def hexBody : List Char → Bool
  | [] => false
  | c :: r => hexDigit c && hexTail r

/-- `int(s, 16)` acceptance: optional surrounding whitespace, optional `+`
sign (`-` cannot reach the UUID check because hyphens were already removed),
optional `0x`/`0X` prefix (with at most one underscore after it), then a
nonempty underscore-separated hex-digit run. -/
def intHex16Ok (l : List Char) : Bool :=
  let t := pyStrip l
  let t := match t with
    | '+' :: r => r
    | r => r
  match t with
  | '0' :: 'x' :: r => (match r with | '_' :: r2 => hexBody r2 | r2 => hexBody r2)
  | '0' :: 'X' :: r => (match r with | '_' :: r2 => hexBody r2 | r2 => hexBody r2)
  | r => hexBody r

/-- Structural worker for `removeAllSub`; `fuel` bounds the number of scan
steps (each step consumes at least one character, so `l.length` suffices). -/
def removeAllSubAux (p : Char) (ps : List Char) : Nat → List Char → List Char
  | 0, l => l
  | _, [] => []
  | fuel + 1, c :: rest =>
    if List.isPrefixOf (p :: ps) (c :: rest) then
      removeAllSubAux p ps fuel (rest.drop ps.length)
    else c :: removeAllSubAux p ps fuel rest

/-- `str.replace(pat, "")` for a nonempty pattern `p :: ps`: remove every
(leftmost, non-overlapping) occurrence. -/
def removeAllSub (p : Char) (ps : List Char) (l : List Char) : List Char :=
  removeAllSubAux p ps l.length l

/-- CPython `uuid.UUID(hex=s)` acceptance (Lib/uuid.py): remove all `urn:`
and `uuid:` substrings, strip surrounding `{`/`}` characters, remove all
hyphens; the remainder must be exactly 32 characters long and parse under
`int(_, 16)`. (A 32-character string has at most 32 hex digits, so the
128-bit range check always passes.) This is the check applied by
`generate_new_instructions` (src/agents.py lines 447-455). -/
def pyUUIDValid (s : List Char) : Bool :=
  let h := removeAllSub 'u' (chars "uid:") (removeAllSub 'u' (chars "rn:") s)
  let h := (h.dropWhile fun c => c = '\x7b' ∨ c = '\x7d').reverse.dropWhile
    (fun c => c = '\x7b' ∨ c = '\x7d') |>.reverse
  let h := h.filter (· ≠ '-')
  h.length = 32 && intHex16Ok h

/-- One regex group triple `(ng_id, supplier_id, text)` from
`pattern.findall(reply)` (src/agents.py lines 420-429). -/
structure InstrBlock where
  ng_id : List Char
  supplier_id : List Char
  text : List Char
deriving DecidableEq, Repr

/-- An `INSERT ... ON CONFLICT (supplier_id, ng_id) DO UPDATE` executed by the
orchestrator (src/agents.py lines 460-470), in argument order
`(supplier_id, ng_id, instructions)`. -/
structure InstrUpsert where
  supplier_id : List Char
  ng_id : List Char
  instructions : List Char
deriving DecidableEq, Repr

/-- The per-block validation and upsert of `generate_new_instructions`
(src/agents.py lines 438-470): trim the three fields; skip the block unless
all are truthy after trimming and both ids pass the UUID check; otherwise
upsert. -/
def upsert_of_block (b : InstrBlock) : Option InstrUpsert :=
  let parsed_ng_id := pyStrip b.ng_id
  let parsed_supplier_id := pyStrip b.supplier_id
  let instructions_text := pyStrip b.text
  if parsed_ng_id.isEmpty || parsed_supplier_id.isEmpty || instructions_text.isEmpty then
    none
  else if pyUUIDValid parsed_ng_id && pyUUIDValid parsed_supplier_id then
    some { supplier_id := parsed_supplier_id, ng_id := parsed_ng_id,
           instructions := instructions_text }
  else none

/-- The upserts executed for a parsed block list, in order (the loop at
src/agents.py lines 438-470: invalid blocks are skipped, never abort). -/
def apply_blocks (ms : List InstrBlock) : List InstrUpsert :=
  ms.filterMap upsert_of_block

/-- `OrchestratorAgent.generate_new_instructions` (src/agents.py lines
295-470), from the Bedrock invocation on: `completion` is the outcome of
`client.invoke_model` (+ reply extraction), and `findall` stands for
`pattern.findall` applied to the successful reply (the compiled regex of
lines 420-427). Returns the executed upserts, or the message of the
`RuntimeError` raised. -/
def generate_new_instructions (completion : Except (List Char) (List Char))
    (findall : List Char → List InstrBlock) : Except (List Char) (List InstrUpsert) :=
  match completion with
  | .error e => .error (chars "Bedrock service is currently unavailable: " ++ e)
  | .ok reply =>
    let ms := findall reply
    if ms.isEmpty then
      .error (chars "No valid [INSTRUCTION] blocks found in response:\n" ++ reply)
    else .ok (apply_blocks ms)

/-- `re.search(r"<([^>]+)>", sender).group(1)` (src/main.py lines 87-89):
leftmost `<`, at least one non-`>` character, then `>`; scanning moves on
when a position fails to match. -/
def extractAngleAddr : List Char → Option (List Char)
  | [] => none
  | '<' :: rest =>
    let content := rest.takeWhile (· ≠ '>')
    if !content.isEmpty && content.length < rest.length then some content
    else extractAngleAddr rest
  | _ :: rest => extractAngleAddr rest

/-- `[a-f0-9]` under `re.IGNORECASE` (src/main.py line 105). -/
def refHexChar (c : Char) : Bool :=
  ('a' ≤ c ∧ c ≤ 'f') ∨ ('A' ≤ c ∧ c ≤ 'F') ∨ ('0' ≤ c ∧ c ≤ '9')

/-- Match `\[REF-([a-f0-9]{8})-([a-f0-9]{8})\]` (case-insensitive) anchored at
the head of `l`, returning the two 8-character groups. -/
def matchRefAt (l : List Char) : Option (List Char × List Char) :=
  if ciPrefixOf (chars "[REF-") l then
    let r := l.drop 5
    let g1 := r.take 8
    if g1.length = 8 && g1.all refHexChar && List.isPrefixOf ['-'] (r.drop 8) then
      let r2 := r.drop 9
      let g2 := r2.take 8
      if g2.length = 8 && g2.all refHexChar && List.isPrefixOf [']'] (r2.drop 8) then
        some (g1, g2)
      else none
    else none
  else none

/-- `re.search(r"\[REF-([a-f0-9]{8})-([a-f0-9]{8})\]", subject, re.IGNORECASE)`
(src/main.py lines 104-106): leftmost match. -/
def findRefTag : List Char → Option (List Char × List Char)
  | [] => none
  | c :: rest =>
    match matchRefAt (c :: rest) with
    | some g => some g
    | none => findRefTag rest

/-- One row of the `supplier` table as the watcher reads it. -/
structure SupplierRow where
  supplier_id : List Char
  supplier_email : List Char
deriving DecidableEq, Repr

/-- The store and in-memory state consulted by `email_watcher`
(src/main.py lines 65-156): the `supplier` table, the `negotiation` table's
id column, and the process-wide `active_sessions` mapping (insertion order)
together with each session's registered agent supplier ids (`_agents` keys).
`fetchrow` on a deterministic store model returns the first matching row. -/
structure WatcherState where
  suppliers : List SupplierRow
  negotiations : List (List Char)
  activeSessions : List (List Char × List (List Char))

/-- The email-to-(ng_id, supplier_id) resolution of `email_watcher`
(src/main.py lines 83-156) for one inbound email: extract the bare sender
address, require a supplier row with exactly that contact address (otherwise
the email is dropped), then resolve the `[REF-…]` subject tag — negotiation
id by prefix against active sessions then the negotiation table, supplier id
by prefix against the supplier table — with the sender-matched supplier and
an active-session scan as fallbacks. Returns the routed pair, or `none` when
the email is dropped. -/
def resolveEmail (st : WatcherState) (sender subject : List Char) :
    Option (List Char × List Char) :=
  let sender_email := (extractAngleAddr sender).getD sender
  match st.suppliers.find? fun r => r.supplier_email = sender_email with
  | none => none
  | some supplier_row =>
    let refM := findRefTag subject
    let ngFromTag : Option (List Char) :=
      match refM with
      | some (ngPre, _) =>
        match st.activeSessions.find? fun s => ngPre.isPrefixOf s.1 with
        | some s => some s.1
        | none => (st.negotiations.find? fun n => ngPre.isPrefixOf n)
      | none => none
    let supFromTag : Option (List Char) :=
      match refM with
      | some (_, supPre) =>
        (st.suppliers.find? fun r => supPre.isPrefixOf r.supplier_id).map (·.supplier_id)
      | none => none
    let supplier_id := supFromTag.getD supplier_row.supplier_id
    let ng_id : Option (List Char) :=
      match ngFromTag with
      | some n => some n
      | none =>
        (st.activeSessions.find? fun s => s.2.contains supplier_id).map (·.1)
    match ng_id with
    | some n => some (n, supplier_id)
    | none => none

/-! ## Helper lemmas -/

theorem ciEq_self (c : Char) : ciEq c c = true := by
  simp [ciEq]

theorem ciPrefixOf_append_self (p rest : List Char) : ciPrefixOf p (p ++ rest) = true := by
  induction p with
  | nil => simp [ciPrefixOf]
  | cons c cs ih => simp [ciPrefixOf, ciEq_self, ih]

theorem dropThroughFirst_length_le (pat x : List Char) (r : List Char)
    (h : dropThroughFirst pat x = some r) : r.length ≤ x.length := by
  induction x with
  | nil => simp [dropThroughFirst] at h
  | cons a as ih =>
    by_cases hp : ciPrefixOf pat (a :: as)
    · simp [dropThroughFirst, hp] at h
      subst h
      simp [List.length_drop]
    · simp [dropThroughFirst, hp] at h
      have := ih h
      simp
      omega

theorem dropThroughFirst_cons (pat : List Char) (c : Char) (rest : List Char) :
    dropThroughFirst pat (c :: rest) =
      if ciPrefixOf pat (c :: rest) then some ((c :: rest).drop pat.length)
      else dropThroughFirst pat rest := rfl

theorem dropThroughFirst_of_occurs (q : Char) (qs a b : List Char) :
    ∃ r, dropThroughFirst (q :: qs) (a ++ (q :: qs) ++ b) = some r := by
  induction a with
  | nil =>
    refine ⟨List.drop (q :: qs).length (q :: (qs ++ b)), ?_⟩
    simp only [List.nil_append, List.cons_append, dropThroughFirst_cons]
    rw [if_pos (by simpa using ciPrefixOf_append_self (q :: qs) b)]
  | cons c cs ih =>
    obtain ⟨r, hr⟩ := ih
    simp only [List.cons_append, List.append_assoc, dropThroughFirst_cons] at hr ⊢
    split
    · exact ⟨_, rfl⟩
    · exact ⟨r, hr⟩

theorem removeTag_length_le (tag l : List Char) : (removeTag tag l).length ≤ l.length := by
  induction l using removeTag.induct tag with
  | case1 => simp [removeTag]
  | case2 c rest hci rem hrem ih =>
    rw [removeTag, if_pos hci]
    split
    next rem2 hrem2 =>
      rw [hrem] at hrem2
      cases hrem2
      have h1 := dropThroughFirst_length_le _ _ _ hrem
      simp [List.length_drop] at h1 ⊢
      omega
    next hrem2 => rw [hrem] at hrem2; cases hrem2
  | case3 c rest hci hrem ih =>
    rw [removeTag, if_pos hci]
    split
    next rem2 hrem2 => rw [hrem] at hrem2; cases hrem2
    next hrem2 => simpa using ih
  | case4 c rest hci ih =>
    rw [removeTag, if_neg hci]
    simpa using ih

theorem removeTag_length_lt_of_ciHead (tag Y' post : List Char) (y : Char)
    (hY : ('<' :: (tag ++ ['>'])).length ≤ (y :: Y').length)
    (hci : ciPrefixOf ('<' :: (tag ++ ['>']))
      (y :: (Y' ++ (('<' :: '/' :: (tag ++ ['>'])) ++ post))) = true) :
    (removeTag tag (y :: (Y' ++ (('<' :: '/' :: (tag ++ ['>'])) ++ post)))).length
      < (y :: (Y' ++ (('<' :: '/' :: (tag ++ ['>'])) ++ post))).length := by
  rw [removeTag, if_pos hci]
  split
  next rem hrem =>
    have h1 := dropThroughFirst_length_le _ _ _ hrem
    have h2 := removeTag_length_le tag rem
    simp [List.length_drop] at h1 hY ⊢
    omega
  next hrem =>
    exfalso
    obtain ⟨r, hocc⟩ := dropThroughFirst_of_occurs '<' ('/' :: (tag ++ ['>']))
      ((y :: Y').drop ('<' :: (tag ++ ['>'])).length) post
    have hdrop : (y :: (Y' ++ (('<' :: '/' :: (tag ++ ['>'])) ++ post))).drop
        ('<' :: (tag ++ ['>'])).length
        = (y :: Y').drop ('<' :: (tag ++ ['>'])).length
          ++ (('<' :: '/' :: (tag ++ ['>'])) ++ post) := by
      conv_lhs =>
        rw [show y :: (Y' ++ (('<' :: '/' :: (tag ++ ['>'])) ++ post))
            = (y :: Y') ++ (('<' :: '/' :: (tag ++ ['>'])) ++ post) from rfl]
        rw [← List.take_append_drop (('<' :: (tag ++ ['>'])).length) (y :: Y'),
          List.append_assoc]
      rw [List.drop_left' (by simp [List.length_take] at hY ⊢; omega)]
    rw [hdrop] at hrem
    simp only [List.append_assoc] at hocc hrem
    rw [hrem] at hocc
    cases hocc

theorem removeTag_length_lt (tag a mid post l : List Char)
    (hl : l = a ++ (('<' :: (tag ++ ['>']))
      ++ (mid ++ (('<' :: '/' :: (tag ++ ['>'])) ++ post)))) :
    (removeTag tag l).length < l.length := by
  induction a generalizing l with
  | nil =>
    subst hl
    simp only [List.nil_append]
    have hform : ('<' :: (tag ++ ['>'])) ++ (mid ++ (('<' :: '/' :: (tag ++ ['>'])) ++ post))
        = '<' :: ((tag ++ ['>'] ++ mid) ++ (('<' :: '/' :: (tag ++ ['>'])) ++ post)) := by
      simp [List.append_assoc]
    rw [hform]
    apply removeTag_length_lt_of_ciHead
    · simp
    · rw [← hform]
      exact ciPrefixOf_append_self _ _
  | cons c cs ih =>
    subst hl
    by_cases hci : ciPrefixOf ('<' :: (tag ++ ['>']))
      ((c :: cs) ++ (('<' :: (tag ++ ['>'])) ++ (mid ++ (('<' :: '/' :: (tag ++ ['>'])) ++ post))))
    · have hform : (c :: cs) ++ (('<' :: (tag ++ ['>']))
          ++ (mid ++ (('<' :: '/' :: (tag ++ ['>'])) ++ post)))
          = c :: ((cs ++ ('<' :: (tag ++ ['>'])) ++ mid)
            ++ (('<' :: '/' :: (tag ++ ['>'])) ++ post)) := by
        simp [List.append_assoc]
      rw [hform] at hci ⊢
      apply removeTag_length_lt_of_ciHead
      · simp
        omega
      · exact hci
    · have hform : (c :: cs) ++ (('<' :: (tag ++ ['>']))
          ++ (mid ++ (('<' :: '/' :: (tag ++ ['>'])) ++ post)))
          = c :: (cs ++ (('<' :: (tag ++ ['>']))
            ++ (mid ++ (('<' :: '/' :: (tag ++ ['>'])) ++ post)))) := rfl
      rw [hform] at hci ⊢
      rw [removeTag, if_neg hci]
      have := ih _ rfl
      simp at this ⊢
      omega

theorem collapseNewlines_length_le (l : List Char) :
    (collapseNewlines l).length ≤ l.length := by
  induction l using collapseNewlines.induct with
  | case1 rest ih =>
    rw [collapseNewlines]
    have hd := (List.dropWhile_suffix (l := rest) (fun c => decide (c = '\n'))).length_le
    simp at ih hd ⊢
    omega
  | case2 c rest hne ih =>
    rw [collapseNewlines]
    · simpa using ih
    · exact hne
  | case3 => simp [collapseNewlines]

theorem pyStrip_length_le (l : List Char) : (pyStrip l).length ≤ l.length := by
  have h1 := (List.dropWhile_suffix (l := l) wsChar).length_le
  have h2 := (List.dropWhile_suffix (l := (l.dropWhile wsChar).reverse) wsChar).length_le
  simp [pyStrip] at h1 h2 ⊢
  omega

theorem foldl_removeTag_length_le (tags : List (List Char)) (acc : List Char) :
    (tags.foldl (fun a tag => removeTag tag a) acc).length ≤ acc.length := by
  induction tags generalizing acc with
  | nil => simp
  | cons t ts ih =>
    simp only [List.foldl_cons]
    exact le_trans (ih (removeTag t acc)) (removeTag_length_le t acc)

theorem strip_reasoning_tokens_length_lt (a mid post text : List Char)
    (htext : text = a ++ (chars "<thinking>" ++ (mid ++ (chars "</thinking>" ++ post)))) :
    (strip_reasoning_tokens text).length < text.length := by
  have hopen : chars "<thinking>" = '<' :: (chars "thinking" ++ ['>']) := by decide
  have hclose : chars "</thinking>" = '<' :: '/' :: (chars "thinking" ++ ['>']) := by decide
  have h1 : (removeTag (chars "thinking") text).length < text.length := by
    apply removeTag_length_lt (chars "thinking") a mid post
    rw [htext, hopen, hclose]
  have h2 : (reasoningTags.foldl (fun acc tag => removeTag tag acc) text).length
      < text.length := by
    have hfold : reasoningTags.foldl (fun acc tag => removeTag tag acc) text
        = (reasoningTags.tail).foldl (fun acc tag => removeTag tag acc)
          (removeTag (chars "thinking") text) := by
      rfl
    rw [hfold]
    exact lt_of_le_of_lt (foldl_removeTag_length_le _ _) h1
  calc (strip_reasoning_tokens text).length
      ≤ (collapseNewlines (reasoningTags.foldl (fun acc tag => removeTag tag acc) text)).length :=
        pyStrip_length_le _
    _ ≤ (reasoningTags.foldl (fun acc tag => removeTag tag acc) text).length :=
        collapseNewlines_length_le _
    _ < text.length := h2

theorem strip_reasoning_tokens_ne (a mid post text : List Char)
    (htext : text = a ++ (chars "<thinking>" ++ (mid ++ (chars "</thinking>" ++ post)))) :
    strip_reasoning_tokens text ≠ text := by
  intro heq
  have := strip_reasoning_tokens_length_lt a mid post text htext
  rw [heq] at this
  omega

theorem splitWsAux_map_wsPreserving (f : Char → Char)
    (hf : ∀ c, wsChar (f c) = wsChar c ∧ (wsChar c = false → f c = c))
    (l : List Char) : ∀ acc, splitWsAux acc (l.map f) = splitWsAux acc l := by
  induction l with
  | nil => intro acc; rfl
  | cons c r ih =>
    intro acc
    obtain ⟨hw, hfix⟩ := hf c
    by_cases hc : wsChar c
    · simp only [List.map_cons, splitWsAux, hw, hc, if_true]
      rw [ih []]
    · have hb : wsChar c = false := by simpa using hc
      simp only [List.map_cons, splitWsAux, hw, hb, if_false, hfix hb]
      exact ih (c :: acc)

theorem splitWsAux_allWs (t : List Char) (ht : ∀ c ∈ t, wsChar c = true) :
    ∀ acc, splitWsAux acc t = if acc.isEmpty then [] else [acc.reverse] := by
  induction t with
  | nil => intro acc; rfl
  | cons c r ih =>
    intro acc
    have hc : wsChar c = true := ht c (by simp)
    have ihr := ih fun d hd => ht d (by simp [hd])
    simp only [splitWsAux, hc, if_true]
    by_cases hacc : acc.isEmpty
    · simp [hacc, ihr []]
    · simp [hacc, ihr []]

theorem splitWsAux_append_trailing (t : List Char) (ht : ∀ c ∈ t, wsChar c = true)
    (l : List Char) : ∀ acc, splitWsAux acc (l ++ t) = splitWsAux acc l := by
  induction l with
  | nil =>
    intro acc
    simp only [List.nil_append]
    rw [splitWsAux_allWs t ht acc]
    rfl
  | cons c r ih =>
    intro acc
    by_cases hc : wsChar c
    · simp only [List.cons_append, splitWsAux, hc, if_true]
      by_cases hacc : acc.isEmpty <;> simp [hacc, ih []]
    · have hb : wsChar c = false := by simpa using hc
      simp only [List.cons_append, splitWsAux, hb, if_false]
      exact ih (c :: acc)

theorem splitWsAux_dropWhile_leading (l : List Char) :
    splitWsAux [] (l.dropWhile wsChar) = splitWsAux [] l := by
  induction l with
  | nil => rfl
  | cons c r ih =>
    by_cases hc : wsChar c
    · rw [List.dropWhile_cons_of_pos (by simpa using hc)]
      rw [ih]
      simp [splitWsAux, hc]
    · rw [List.dropWhile_cons_of_neg (by simpa using hc)]

theorem pySplitWs_pyStrip (l : List Char) : pySplitWs (pyStrip l) = pySplitWs l := by
  have hdecomp : l.dropWhile wsChar
      = pyStrip l ++ ((l.dropWhile wsChar).reverse.takeWhile wsChar).reverse := by
    conv_lhs => rw [← List.reverse_reverse (l.dropWhile wsChar)]
    conv_lhs =>
      rw [← List.takeWhile_append_dropWhile (p := wsChar) (l := (l.dropWhile wsChar).reverse)]
    rw [List.reverse_append]
    rfl
  have ht : ∀ c ∈ ((l.dropWhile wsChar).reverse.takeWhile wsChar).reverse,
      wsChar c = true := by
    intro c hc
    rw [List.mem_reverse] at hc
    exact List.mem_takeWhile_imp hc
  unfold pySplitWs
  rw [← splitWsAux_append_trailing _ ht (pyStrip l) [], ← hdecomp,
    splitWsAux_dropWhile_leading]

theorem clean_subject_eq_specSanitize (subject : List Char) :
    clean_subject subject = specSanitizeSubject subject := by
  unfold clean_subject specSanitizeSubject
  rw [pySplitWs_pyStrip]
  unfold pySplitWs
  rw [splitWsAux_map_wsPreserving (fun c => if c = '\r' then ' ' else c)
    (by intro c; by_cases h : c = '\r' <;> simp [h, wsChar])]
  rw [splitWsAux_map_wsPreserving (fun c => if c = '\n' then ' ' else c)
    (by intro c; by_cases h : c = '\n' <;> simp [h, wsChar])]

theorem splitWsAux_words_not_ws (l : List Char) :
    ∀ acc, (∀ c ∈ acc, wsChar c = false) →
      ∀ w ∈ splitWsAux acc l, ∀ c ∈ w, wsChar c = false := by
  induction l with
  | nil =>
    intro acc hacc w hw c hc
    simp only [splitWsAux] at hw
    by_cases h : acc.isEmpty
    · simp [h] at hw
    · simp [h] at hw
      subst hw
      exact hacc c (by simpa using hc)
  | cons a r ih =>
    intro acc hacc w hw c hc
    by_cases ha : wsChar a
    · simp only [splitWsAux, ha, if_true] at hw
      by_cases h : acc.isEmpty
      · rw [if_pos h] at hw
        exact ih [] (by simp) w hw c hc
      · rw [if_neg h] at hw
        rcases List.mem_cons.mp hw with hw | hw
        · subst hw
          exact hacc c (by simpa using hc)
        · exact ih [] (by simp) w hw c hc
    · have hb : wsChar a = false := by simpa using ha
      simp only [splitWsAux, hb, if_false] at hw
      refine ih (a :: acc) ?_ w hw c hc
      intro d hd
      rcases List.mem_cons.mp hd with hd | hd
      · subst hd; exact hb
      · exact hacc d hd

theorem mem_joinSpace (ws : List (List Char)) (c : Char) (hc : c ∈ joinSpace ws) :
    c = ' ' ∨ ∃ w ∈ ws, c ∈ w := by
  induction ws using joinSpace.induct with
  | case1 => simp [joinSpace] at hc
  | case2 w =>
    simp only [joinSpace] at hc
    exact Or.inr ⟨w, by simp, hc⟩
  | case3 w v rest ih =>
    simp only [joinSpace, List.mem_append, List.mem_cons] at hc
    rcases hc with hc | hc | hc
    · exact Or.inr ⟨w, by simp, hc⟩
    · exact Or.inl hc
    · rcases ih hc with h | ⟨u, hu, hcu⟩
      · exact Or.inl h
      · exact Or.inr ⟨u, by simp [hu], hcu⟩

/-! ## Claim theorems -/

/-- Claim C2: for every event dispatched to a session's registered handler
(registered via `add_agent`, so the supplier has an agent in the session's
map), the handler performs exactly three steps in strict order — persist the
event body as a `supplier`-role turn for (ng_id, supplier_id), invoke the
orchestrator's instruction refresh for the whole negotiation, then invoke
`send_message` for this specific supplier only — and no `sendMessage` effect
for any other supplier occurs. -/
theorem c2_session_handler_protocol (agents : List (List Char))
    (ng_id supplier_id : List Char) (e : EmailEvent)
    (hagent : agents.contains supplier_id = true) :
    session_handler agents ng_id supplier_id true e =
      ([Effect.persistTurn ng_id supplier_id (chars "supplier") e.body,
        Effect.refreshInstructions ng_id,
        Effect.sendMessage ng_id supplier_id], true)
    ∧ ∀ ng' sup', Effect.sendMessage ng' sup'
        ∈ (session_handler agents ng_id supplier_id true e).1 →
        ng' = ng_id ∧ sup' = supplier_id := by
  have hin : supplier_id ∈ agents := by simpa using hagent
  constructor
  · simp [session_handler, hin]
  · intro ng' sup' hmem
    simp [session_handler, hin] at hmem
    exact hmem

/-- Claim C2 witness: a concrete session with one registered agent. -/
theorem c2_session_handler_protocol_witness :
    session_handler [chars "sup-1"] (chars "ng-1") (chars "sup-1") true
      { sender := chars "s@x.example", subject := chars "Offer",
        body := chars "Price is 100" } =
      ([Effect.persistTurn (chars "ng-1") (chars "sup-1") (chars "supplier")
          (chars "Price is 100"),
        Effect.refreshInstructions (chars "ng-1"),
        Effect.sendMessage (chars "ng-1") (chars "sup-1")], true) :=
  (c2_session_handler_protocol [chars "sup-1"] (chars "ng-1") (chars "sup-1")
    { sender := chars "s@x.example", subject := chars "Offer",
      body := chars "Price is 100" } (by decide)).1

/-- Claim C9: if the handler fires for a supplier id that has no agent in the
session's map at event time, steps 1 and 2 still run (the supplier turn is
persisted, then the orchestrator refresh is invoked), no reply is sent, and
the handler returns normally; the agent is resolved from the event-time map
(the `agents` argument), not from any registration-time snapshot. -/
theorem c9_session_handler_missing_agent (agents : List (List Char))
    (ng_id supplier_id : List Char) (e : EmailEvent)
    (hagent : agents.contains supplier_id = false) :
    session_handler agents ng_id supplier_id true e =
      ([Effect.persistTurn ng_id supplier_id (chars "supplier") e.body,
        Effect.refreshInstructions ng_id], true) := by
  have hnin : supplier_id ∉ agents := by simpa using hagent
  simp [session_handler, hnin]

/-- Claim C9 witness: an event-time map with no agent for the supplier. -/
theorem c9_session_handler_missing_agent_witness :
    session_handler [] (chars "ng-1") (chars "sup-1") true
      { sender := chars "s@x.example", subject := chars "Offer",
        body := chars "Price is 100" } =
      ([Effect.persistTurn (chars "ng-1") (chars "sup-1") (chars "supplier")
          (chars "Price is 100"),
        Effect.refreshInstructions (chars "ng-1")], true) :=
  c9_session_handler_missing_agent [] (chars "ng-1") (chars "sup-1")
    { sender := chars "s@x.example", subject := chars "Offer",
      body := chars "Price is 100" } (by decide)

/-- Claim C3: on every Completion Service failure inside `send_initial_message`
or `send_message`, the call returns the placeholder string describing the
unavailability (it does not raise: the model is a total function into
`SendResult`), performs no store append and sends no email. -/
theorem c3_bedrock_failure_degrades (cfg : AgentConfig) (e : List Char) :
    send_initial_message cfg (Except.error e) =
      { returned := bedrockUnavailable e, persisted := [], emailed := [] }
    ∧ send_message cfg (Except.error e) =
      { returned := bedrockUnavailable e, persisted := [], emailed := [] } :=
  ⟨rfl, rfl⟩

/-- Claim C4 counterexample: the stored role `"assistant"` is not one of
`negotiator`/`supplier`/`system`, yet `_map_role` maps it to `"assistant"`,
not to `"user"` as the claim requires for "every other stored role". -/
theorem c4_map_role_counterexample :
    map_role (chars "assistant") ≠ chars "user" := by decide

/-- Claim C4 (amended): the remapping is a pure total function with
`negotiator→assistant`, `supplier→user`, `system→system`, `user→user`,
`assistant→assistant`, and every stored role outside these five dictionary
keys maps to `user`. -/
theorem c4_map_role_amended (r : List Char) :
    map_role (chars "negotiator") = chars "assistant"
    ∧ map_role (chars "supplier") = chars "user"
    ∧ map_role (chars "system") = chars "system"
    ∧ map_role (chars "user") = chars "user"
    ∧ map_role (chars "assistant") = chars "assistant"
    ∧ (r ≠ chars "negotiator" → r ≠ chars "supplier" → r ≠ chars "system" →
        r ≠ chars "user" → r ≠ chars "assistant" → map_role r = chars "user") := by
  refine ⟨by decide, by decide, by decide, by decide, by decide, ?_⟩
  intro h1 h2 h3 h4 h5
  simp [map_role, h1, h2, h3, h4, h5]

/-- Claim C4 witness: an unlisted role falls back to `user`. -/
theorem c4_map_role_amended_witness :
    map_role (chars "customer") = chars "user" :=
  (c4_map_role_amended (chars "customer")).2.2.2.2.2
    (by decide) (by decide) (by decide) (by decide) (by decide)

/-- Claim C5: `generate_new_instructions` fails (raises a `RuntimeError`
surfaced to the caller) in exactly two situations — the Completion Service
invocation failed, or the successful reply parses to zero `[INSTRUCTION]`
blocks; in every other case it returns normally. -/
theorem c5_orchestrator_hard_failures (completion : Except (List Char) (List Char))
    (findall : List Char → List InstrBlock) :
    (∃ msg, generate_new_instructions completion findall = Except.error msg) ↔
      (∃ e, completion = Except.error e)
      ∨ (∃ r, completion = Except.ok r ∧ findall r = []) := by
  cases completion with
  | error e => simp [generate_new_instructions]
  | ok r =>
    by_cases hms : (findall r).isEmpty
    · simp [generate_new_instructions, hms, List.isEmpty_iff.mp hms]
    · have hne : findall r ≠ [] := by simpa [List.isEmpty_iff] using hms
      simp [generate_new_instructions, hms, hne]

theorem upsert_of_block_characterization (b : InstrBlock) :
    upsert_of_block b =
      if pyStrip b.ng_id ≠ [] ∧ pyStrip b.supplier_id ≠ [] ∧ pyStrip b.text ≠ []
          ∧ pyUUIDValid (pyStrip b.ng_id) = true
          ∧ pyUUIDValid (pyStrip b.supplier_id) = true
        then some { supplier_id := pyStrip b.supplier_id, ng_id := pyStrip b.ng_id,
                    instructions := pyStrip b.text }
        else none := by
  unfold upsert_of_block
  by_cases h1 : pyStrip b.ng_id = []
  · simp [h1]
  · by_cases h2 : pyStrip b.supplier_id = []
    · simp [h1, h2]
    · by_cases h3 : pyStrip b.text = []
      · simp [h1, h2, h3]
      · by_cases h4 : pyUUIDValid (pyStrip b.ng_id) = true
        · by_cases h5 : pyUUIDValid (pyStrip b.supplier_id) = true
          · simp [h1, h2, h3, h4, h5, List.isEmpty_iff]
          · simp [h1, h2, h3, h4, h5, List.isEmpty_iff]
        · simp [h1, h2, h3, h4, List.isEmpty_iff]

/-- Claim C6: for every parsed `[INSTRUCTION]` block, all three fields are
trimmed and the block yields an upsert keyed by the (trimmed) negotiation and
supplier ids if and only if all three trimmed fields are non-empty and both
ids pass the strict UUID format check; a failing block is skipped rather than
failing the call, so one well-formed block plus one block whose text trims to
empty yields exactly one applied upsert. -/
theorem c6_block_validation_and_skip (b good bad : InstrBlock)
    (hg1 : pyStrip good.ng_id ≠ []) (hg2 : pyStrip good.supplier_id ≠ [])
    (hg3 : pyStrip good.text ≠ [])
    (hg4 : pyUUIDValid (pyStrip good.ng_id) = true)
    (hg5 : pyUUIDValid (pyStrip good.supplier_id) = true)
    (hbad : pyStrip bad.text = []) :
    (upsert_of_block b =
      if pyStrip b.ng_id ≠ [] ∧ pyStrip b.supplier_id ≠ [] ∧ pyStrip b.text ≠ []
          ∧ pyUUIDValid (pyStrip b.ng_id) = true
          ∧ pyUUIDValid (pyStrip b.supplier_id) = true
        then some { supplier_id := pyStrip b.supplier_id, ng_id := pyStrip b.ng_id,
                    instructions := pyStrip b.text }
        else none)
    ∧ apply_blocks [good, bad] =
        [{ supplier_id := pyStrip good.supplier_id, ng_id := pyStrip good.ng_id,
           instructions := pyStrip good.text }] := by
  refine ⟨upsert_of_block_characterization b, ?_⟩
  have hgood := upsert_of_block_characterization good
  rw [if_pos ⟨hg1, hg2, hg3, hg4, hg5⟩] at hgood
  have hbadu := upsert_of_block_characterization bad
  rw [if_neg (by simp [hbad])] at hbadu
  simp [apply_blocks, List.filterMap, hgood, hbadu]

/-- Claim C6 witness: one well-formed block (valid UUIDs, non-empty text) and
one block with whitespace-only text yield exactly one upsert. -/
theorem c6_block_validation_and_skip_witness :
    apply_blocks
      [{ ng_id := chars "f47ac10b-58cc-4372-a567-0e02b2c3d479",
         supplier_id := chars " 9b2d7c64-1f03-4a7e-8a40-5cde9f013a22 ",
         text := chars " Offer 10% less " },
       { ng_id := chars "f47ac10b-58cc-4372-a567-0e02b2c3d479",
         supplier_id := chars "9b2d7c64-1f03-4a7e-8a40-5cde9f013a22",
         text := chars "   " }] =
      [{ supplier_id := chars "9b2d7c64-1f03-4a7e-8a40-5cde9f013a22",
         ng_id := chars "f47ac10b-58cc-4372-a567-0e02b2c3d479",
         instructions := chars "Offer 10% less" }] := by
  have h := (c6_block_validation_and_skip
    { ng_id := chars "f47ac10b-58cc-4372-a567-0e02b2c3d479",
      supplier_id := chars " 9b2d7c64-1f03-4a7e-8a40-5cde9f013a22 ",
      text := chars " Offer 10% less " }
    { ng_id := chars "f47ac10b-58cc-4372-a567-0e02b2c3d479",
      supplier_id := chars " 9b2d7c64-1f03-4a7e-8a40-5cde9f013a22 ",
      text := chars " Offer 10% less " }
    { ng_id := chars "f47ac10b-58cc-4372-a567-0e02b2c3d479",
      supplier_id := chars "9b2d7c64-1f03-4a7e-8a40-5cde9f013a22",
      text := chars "   " }
    (by decide) (by decide) (by decide) (by decide) (by decide) (by decide)).2
  have e1 : pyStrip (chars " 9b2d7c64-1f03-4a7e-8a40-5cde9f013a22 ")
      = chars "9b2d7c64-1f03-4a7e-8a40-5cde9f013a22" := by decide
  have e2 : pyStrip (chars "f47ac10b-58cc-4372-a567-0e02b2c3d479")
      = chars "f47ac10b-58cc-4372-a567-0e02b2c3d479" := by decide
  have e3 : pyStrip (chars " Offer 10% less ") = chars "Offer 10% less" := by decide
  rw [h]
  simp [e1, e2, e3]

/-- Claim C7: `push` dispatches the handler registered for the exact composite
key when the event carries both a (non-empty) negotiation id and supplier id
and such a registration exists; otherwise it dispatches the default handler
when one is set; otherwise it invokes no handler and returns without error —
in particular a router with no registrations and no default handler invokes
zero handlers for any event. -/
theorem c7_push_dispatch (st : RouterState) (e : EmailEvent) :
    (∀ ng sup h, e.ng_id = some ng → e.supplier_id = some sup →
        ng.isEmpty = false → sup.isEmpty = false →
        (st.handlers.find? fun kv => kv.1 = make_key ng sup) = some (make_key ng sup, h) →
        push st e = some h)
    ∧ (push_exact_handler st e = none → push st e = st.default_handler)
    ∧ (st.handlers = [] → st.default_handler = none → push st e = none) := by
  refine ⟨?_, ?_, ?_⟩
  · intro ng sup h hng hsup hngne hsupne hfind
    unfold push push_exact_handler
    rw [hng, hsup]
    simp only [optTruthy, hngne, hsupne, Option.getD_some, Bool.not_false, Bool.and_self,
      if_true, hfind, Option.map_some]
    rfl
  · intro hnone
    unfold push
    rw [hnone]
  · intro hh hd
    unfold push push_exact_handler
    rw [hh, hd]
    simp

/-- Claim C7 witness: an exact-key registration is dispatched in preference to
the default handler. -/
theorem c7_push_dispatch_witness :
    push { handlers := [(make_key (chars "ng-1") (chars "sup-1"), 7)],
           default_handler := some 9 }
      { sender := chars "s@x.example", subject := chars "Hi", body := chars "Hello",
        supplier_id := some (chars "sup-1"), ng_id := some (chars "ng-1") } = some 7 :=
  (c7_push_dispatch
    { handlers := [(make_key (chars "ng-1") (chars "sup-1"), 7)], default_handler := some 9 }
    { sender := chars "s@x.example", subject := chars "Hi", body := chars "Hello",
      supplier_id := some (chars "sup-1"), ng_id := some (chars "ng-1") }).1
    (chars "ng-1") (chars "sup-1") 7 rfl rfl (by decide) (by decide) (by decide)

/-- Claim C8: on every successful completion, both send paths persist the raw
model reply as the `negotiator` turn while emailing the reasoning-stripped
reply; whenever the reply contains a `<thinking>…</thinking>` block, the
stripped text differs from the raw reply, so the persisted turn and the
emailed body differ. -/
theorem c8_persist_raw_email_stripped (cfg : AgentConfig) (reply : List Char)
    (hclient : cfg.has_email_client = true)
    (hemail : optTruthy cfg.supplier_email = true) :
    (send_initial_message cfg (Except.ok reply)).persisted
        = [(cfg.ng_id, cfg.sup_id, chars "negotiator", reply)]
    ∧ (send_message cfg (Except.ok reply)).persisted
        = [(cfg.ng_id, cfg.sup_id, chars "negotiator", reply)]
    ∧ (send_initial_message cfg (Except.ok reply)).emailed
        = [(cfg.supplier_email.getD [], initialSubject cfg, strip_reasoning_tokens reply)]
    ∧ (send_message cfg (Except.ok reply)).emailed
        = [(cfg.supplier_email.getD [], replySubject cfg, strip_reasoning_tokens reply)]
    ∧ (∀ a mid post,
        reply = a ++ (chars "<thinking>" ++ (mid ++ (chars "</thinking>" ++ post))) →
        strip_reasoning_tokens reply ≠ reply) := by
  refine ⟨?_, ?_, ?_, ?_, ?_⟩
  · simp [send_initial_message, agent_send]
  · simp [send_message, agent_send]
  · simp [send_initial_message, agent_send, hclient, hemail]
  · simp [send_message, agent_send, hclient, hemail]
  · intro a mid post h
    exact strip_reasoning_tokens_ne a mid post reply h

/-- Claim C8 witness: a concrete configured agent and a reply containing a
thinking block — the raw reply is persisted, the stripped reply is emailed,
and the two differ. -/
theorem c8_persist_raw_email_stripped_witness :
    (send_message
        { ng_id := chars "ng-1", sup_id := chars "sup-1",
          supplier_name := chars "Acme", product := chars "Widgets",
          has_email_client := true, supplier_email := some (chars "acme@z.example") }
        (Except.ok (chars "<thinking>plan</thinking>Deal at 95"))).persisted
      = [(chars "ng-1", chars "sup-1", chars "negotiator",
          chars "<thinking>plan</thinking>Deal at 95")]
    ∧ strip_reasoning_tokens (chars "<thinking>plan</thinking>Deal at 95")
        ≠ chars "<thinking>plan</thinking>Deal at 95" := by
  have h := c8_persist_raw_email_stripped
    { ng_id := chars "ng-1", sup_id := chars "sup-1",
      supplier_name := chars "Acme", product := chars "Widgets",
      has_email_client := true, supplier_email := some (chars "acme@z.example") }
    (chars "<thinking>plan</thinking>Deal at 95") rfl (by decide)
  exact ⟨h.2.1, h.2.2.2.2 [] (chars "plan") (chars "Deal at 95") (by decide)⟩

/-- Claim C10: after a successful login, `email_send` sends exactly one
message whose subject is the input subject with line breaks removed, runs of
whitespace collapsed to single spaces, and surrounding whitespace stripped
(`specSanitizeSubject`, written from the spec's words: the whitespace-separated
words joined by single spaces — every whitespace character surviving in the
sent subject is a single space), while the recipient and body pass through
unchanged. -/
theorem c10_email_send_sanitized_subject (st : EmailClientState)
    (addr pw to_email subject body : List Char)
    (haddr : st.email_address = some addr) (hpw : st.password = some pw) :
    email_send st to_email subject body =
      Except.ok { fromAddr := addr, toAddr := to_email,
                  subject := specSanitizeSubject subject, body := body }
    ∧ ∀ c ∈ specSanitizeSubject subject, wsChar c = true → c = ' ' := by
  constructor
  · unfold email_send
    rw [haddr, hpw]
    rw [clean_subject_eq_specSanitize]
  · intro c hc hws
    rcases mem_joinSpace _ c hc with h | ⟨w, hw, hcw⟩
    · exact h
    · exfalso
      have hf := splitWsAux_words_not_ws subject [] (by simp) w hw c hcw
      rw [hf] at hws
      cases hws

/-- Claim C10 witness: a concrete logged-in send; the subject loses its line
breaks and collapses its whitespace runs, recipient and body unchanged. -/
theorem c10_email_send_sanitized_subject_witness :
    email_send { email_address := some (chars "me@corp.example"),
                 password := some (chars "pw") }
      (chars "acme@z.example") (chars "  Re:\n hello\r\r  world ")
      (chars "Line one\nLine two") =
      Except.ok { fromAddr := chars "me@corp.example", toAddr := chars "acme@z.example",
                  subject := chars "Re: hello world", body := chars "Line one\nLine two" } := by
  have h := (c10_email_send_sanitized_subject
    { email_address := some (chars "me@corp.example"), password := some (chars "pw") }
    (chars "me@corp.example") (chars "pw") (chars "acme@z.example")
    (chars "  Re:\n hello\r\r  world ") (chars "Line one\nLine two") rfl rfl).1
  rw [h]
  have : specSanitizeSubject (chars "  Re:\n hello\r\r  world ") = chars "Re: hello world" := by
    decide
  rw [this]

/-- Claim C1 counterexample: an active session `aaaaaaaa-ng` has a registered
agent for supplier `bbbbbbbb-sup` (also present in the supplier store), and
the subject carries the well-formed tag `[REF-aaaaaaaa-bbbbbbbb]`, yet because
the sender address matches no supplier contact address the watcher drops the
email before consulting the tag: resolution returns `none` instead of the
tagged pair, so resolution is not independent of the sender address. -/
theorem c1_resolver_counterexample :
    resolveEmail
      { suppliers := [{ supplier_id := chars "bbbbbbbb-sup",
                        supplier_email := chars "supplier@real.example" }],
        negotiations := [chars "aaaaaaaa-ng"],
        activeSessions := [(chars "aaaaaaaa-ng", [chars "bbbbbbbb-sup"])] }
      (chars "mallory@unknown.example")
      (chars "[REF-aaaaaaaa-bbbbbbbb] Offer") = none := by
  decide

/-- Claim C1 (amended): when the extracted sender address matches some
supplier contact row (any row — the resolved pair does not depend on which),
a well-formed `[REF-…]` tag resolves to the first active session whose
negotiation id starts with the tag's first group together with the first
supplier-store row whose id starts with the tag's second group; an email
whose sender matches no supplier contact is dropped before tag resolution. -/
theorem c1_resolver_amended (st : WatcherState) (sender subject : List Char)
    (srow srow2 : SupplierRow) (ngPre supPre ng : List Char)
    (agents : List (List Char))
    (hsender : st.suppliers.find?
        (fun r => r.supplier_email = (extractAngleAddr sender).getD sender) = some srow)
    (htag : findRefTag subject = some (ngPre, supPre))
    (hsession : st.activeSessions.find? (fun s => ngPre.isPrefixOf s.1) = some (ng, agents))
    (hsup : st.suppliers.find? (fun r => supPre.isPrefixOf r.supplier_id) = some srow2) :
    resolveEmail st sender subject = some (ng, srow2.supplier_id) := by
  simp only [resolveEmail, hsender, htag, hsession, hsup, Option.map_some, Option.getD_some]
  rfl

/-- Claim C1 witness: the sender matches an unrelated supplier's contact
address, yet resolution follows the tag to the session `aaaaaaaa-ng` and the
supplier `bbbbbbbb-sup`. -/
theorem c1_resolver_amended_witness :
    resolveEmail
      { suppliers := [{ supplier_id := chars "cccccccc-other",
                        supplier_email := chars "known@z.example" },
                      { supplier_id := chars "bbbbbbbb-sup",
                        supplier_email := chars "b@z.example" }],
        negotiations := [],
        activeSessions := [(chars "aaaaaaaa-ng", [chars "bbbbbbbb-sup"])] }
      (chars "Eve <known@z.example>")
      (chars "Re: [REF-aaaaaaaa-bbbbbbbb] counter")
      = some (chars "aaaaaaaa-ng", chars "bbbbbbbb-sup") :=
  c1_resolver_amended
    { suppliers := [{ supplier_id := chars "cccccccc-other",
                      supplier_email := chars "known@z.example" },
                    { supplier_id := chars "bbbbbbbb-sup",
                      supplier_email := chars "b@z.example" }],
      negotiations := [],
      activeSessions := [(chars "aaaaaaaa-ng", [chars "bbbbbbbb-sup"])] }
    (chars "Eve <known@z.example>") (chars "Re: [REF-aaaaaaaa-bbbbbbbb] counter")
    { supplier_id := chars "cccccccc-other", supplier_email := chars "known@z.example" }
    { supplier_id := chars "bbbbbbbb-sup", supplier_email := chars "b@z.example" }
    (chars "aaaaaaaa") (chars "bbbbbbbb") (chars "aaaaaaaa-ng") [chars "bbbbbbbb-sup"]
    (by decide) (by decide) (by decide) (by decide)
